import Mathlib

/-!
Verification of the distributed-RL training architecture of this repository.

The one source file under version control here is the job-launcher notebook
`DistributedRL/LaunchTrainingJob.ipynb`: it builds one Azure Batch job with a
trainer task and a pool of agent tasks, each given its configuration on its
command line.  The coordination code the tasks run (`manage.py`,
`distributed_agent.py` under `scripts_downpour`) ships on the file share and
is not part of the repository snapshot, so the parameter-server core, the
replay memory, the epsilon schedule and the checkpoint cadence are modelled
from the specification's words; the launcher is embedded from the notebook
itself.
-/

set_option maxRecDepth 8000

/-! ## String-occurrence infrastructure

Substring search over `List Char`, executable, so that key=value occurrences
in the launched command lines can be both decided on concrete strings and
proved for strings with variable parts. -/

/-- Does `p` stand at the very front of `l`? -/
def listHasPre (p l : List Char) : Bool :=
  match p, l with
  | [], _ => true
  | _ :: _, [] => false
  | a :: ps, b :: ls => a == b && listHasPre ps ls

/-- Does `p` stand anywhere inside `l`? -/
def listHasSub (p l : List Char) : Bool :=
  match l with
  | [] => p.isEmpty
  | _ :: ls => listHasPre p l || listHasSub p ls

/-- Does the pattern `pat` occur as a contiguous substring of `s`? -/
def occursIn (pat s : String) : Bool := listHasSub pat.data s.data

theorem listHasPre_self_append (p r : List Char) : listHasPre p (p ++ r) = true := by
  induction p with
  | nil => rfl
  | cons a ps ih => simp [listHasPre, ih]

theorem listHasPre_append_of (p l r : List Char) (h : listHasPre p l = true) :
    listHasPre p (l ++ r) = true := by
  induction p generalizing l with
  | nil => rfl
  | cons a ps ih =>
    cases l with
    | nil => simp [listHasPre] at h
    | cons b ls =>
      simp [listHasPre] at h
      simp [listHasPre, h.1, ih ls h.2]

theorem listHasSub_cons (p : List Char) (c : Char) (l : List Char)
    (h : listHasSub p l = true) : listHasSub p (c :: l) = true := by
  simp [listHasSub, h]

theorem listHasSub_append_right (p l r : List Char) (h : listHasSub p r = true) :
    listHasSub p (l ++ r) = true := by
  induction l with
  | nil => simpa using h
  | cons c ls ih => exact listHasSub_cons _ _ _ ih

theorem listHasSub_append_left (p l r : List Char) (h : listHasSub p l = true) :
    listHasSub p (l ++ r) = true := by
  induction l with
  | nil =>
    simp [listHasSub] at h
    cases p with
    | nil => cases r with
      | nil => rfl
      | cons c rs => simp [listHasSub, listHasPre]
    | cons a ps => simp [List.isEmpty] at h
  | cons c ls ih =>
    simp only [listHasSub, Bool.or_eq_true] at h
    rcases h with h | h
    · simp only [List.cons_append, listHasSub, Bool.or_eq_true]
      exact Or.inl (listHasPre_append_of _ _ _ h)
    · simp only [List.cons_append, listHasSub, Bool.or_eq_true]
      exact Or.inr (ih h)

theorem listHasSub_self_append (p r : List Char) : listHasSub p (p ++ r) = true := by
  cases p with
  | nil => cases r with
    | nil => rfl
    | cons c rs => simp [listHasSub, listHasPre]
  | cons a ps =>
    have h := listHasPre_self_append (a :: ps) r
    rw [List.cons_append] at h ⊢
    simp [listHasSub, h]

theorem occursIn_left (pat s t : String) (h : occursIn pat s = true) :
    occursIn pat (s ++ t) = true := by
  unfold occursIn at h ⊢
  rw [String.data_append]
  exact listHasSub_append_left _ _ _ h

theorem occursIn_right (pat s t : String) (h : occursIn pat t = true) :
    occursIn pat (s ++ t) = true := by
  unfold occursIn at h ⊢
  rw [String.data_append]
  exact listHasSub_append_right _ _ _ h

theorem occursIn_start (pat t : String) : occursIn pat (pat ++ t) = true := by
  unfold occursIn
  rw [String.data_append]
  exact listHasSub_self_append _ _

theorem str_append_assoc (a b c : String) : (a ++ b) ++ c = a ++ (b ++ c) := by
  apply String.ext
  simp [String.data_append, List.append_assoc]

/-! ## The launcher (`DistributedRL/LaunchTrainingJob.ipynb`)

Embedding of the notebook cells that build the job and its tasks.  Python's
`str.format` renders the hyperparameter constants into the two command-line
format strings; the Lean definitions keep each literal piece of the format
string as one literal and splice the formatted values in between, so the
resulting `String` is exactly the notebook's command line. -/

/-- Hyperparameter cell of the notebook: `batch_update_frequency = 300`. -/
def batch_update_frequency : Nat := 300

/-- Hyperparameter cell of the notebook: `max_epoch_runtime_sec = 30`. -/
def max_epoch_runtime_sec : Nat := 30

/-- Hyperparameter cell of the notebook: `per_iter_epsilon_reduction = 0.003`,
as the exact rational the decimal literal denotes. -/
def per_iter_epsilon_reduction : ℚ := 3 / 1000

/-- Hyperparameter cell of the notebook: `min_epsilon = 0.1`, as the exact
rational the decimal literal denotes. -/
def min_epsilon : ℚ := 1 / 10

/-- Hyperparameter cell of the notebook: `batch_size = 32`. -/
def batch_size : Nat := 32

/-- Hyperparameter cell of the notebook: `replay_memory_size = 2000`. -/
def replay_memory_size : Nat := 2000

/-- Hyperparameter cell of the notebook: the pretrained-weights path
`'Z:\\data\\pretrain_model_weights.h5'` (a normal Python string, so each
doubled backslash denotes one backslash character). -/
def weights_path : String := "Z:\\data\\pretrain_model_weights.h5"

/-- Hyperparameter cell of the notebook: `train_conv_layers = 'false'`. -/
def train_conv_layers : String := "false"

/-- Job-name cell: `job_id = 'distributed_rl_{0}'.format(str(uuid.uuid4()))`.
The freshly drawn UUID4 rendering is the parameter `u`. -/
def job_id (u : String) : String := "distributed_rl_" ++ u

/-- Azure Batch `JobAddParameter`, restricted to the fields the notebook sets:
the job id and the pool the job runs on. -/
structure JobAddParameter where
  id : String
  pool_id : String

/-- Job cell: `batch.models.JobAddParameter(job_id, PoolInformation(pool_id))`. -/
def job (u pool_name : String) : JobAddParameter :=
  { id := job_id u, pool_id := pool_name }

/-- The trainer task's command-line format string (a Python raw string, so each
doubled backslash denotes two backslash characters), with the four formatted
values `experiment_name`, `batch_update_frequency`, `weights_path` and
`train_conv_layers` spliced in between its literal pieces. -/
def trainer_command_line (experiment_name bufreq wpath tconv : String) : String :=
  "call C:\\\\prereq\\\\mount.bat && C:\\\\ProgramData\\\\Anaconda3\\\\Scripts\\\\activate.bat py36 && python -u Z:\\\\scripts_downpour\\\\manage.py runserver 0.0.0.0:80 data_dir=Z:\\\\\\\\ role=trainer experiment_name=" ++
  (experiment_name ++ (" batch_update_frequency=" ++ (bufreq ++
  (" weights_path=" ++ (wpath ++ (" train_conv_layers=" ++ tconv))))))

/-- The agent task's command-line format string (`agent_cmd_line` in the
notebook), with its eight formatted values spliced in between its literal
pieces. -/
def agent_cmd_line (mer per mineps bsz rms experiment_name wpath tconv : String) : String :=
  "call C:\\\\prereq\\\\mount.bat && C:\\\\ProgramData\\\\Anaconda3\\\\Scripts\\\\activate.bat py36 && python -u Z:\\\\scripts_downpour\\\\app\\\\distributed_agent.py data_dir=Z: role=agent max_epoch_runtime_sec=" ++
  (mer ++ (" per_iter_epsilon_reduction=" ++ (per ++ (" min_epsilon=" ++ (mineps ++
  (" batch_size=" ++ (bsz ++ (" replay_memory_size=" ++ (rms ++
  (" experiment_name=" ++ (experiment_name ++ (" weights_path=" ++ (wpath ++
  (" train_conv_layers=" ++ tconv))))))))))))))

/-- The trainer command line the notebook launches: the format string applied
to the notebook's constants (`str.format` renders `300` as `"300"`) and to the
job id built from the UUID rendering `u`. -/
def trainer_cmd (u : String) : String :=
  trainer_command_line (job_id u) "300" weights_path train_conv_layers

/-- The agent command line the notebook launches: the format string applied to
the notebook's constants (`str.format` renders `30` as `"30"`, `32` as `"32"`,
`2000` as `"2000"`, and the `:f`-formatted floats `0.003` and `0.1` as
`"0.003000"` and `"0.100000"`) and to the job id built from `u`. -/
def agent_cmd (u : String) : String :=
  agent_cmd_line "30" "0.003000" "0.100000" "32" "2000" (job_id u)
    weights_path train_conv_layers

/-- Azure Batch `TaskAddParameter`, restricted to the fields the notebook sets,
plus a ghost field `role`: the value of the `role=` argument baked into the
task's command-line format string (`role=trainer` for the trainer task,
`role=agent` for the agent tasks; see `task_role_in_command_line`). -/
structure TaskAddParameter where
  id : String
  role : String
  command_line : String
  display_name : String
  user_name : String
  number_of_instances : Nat
  coordination_command_line : String

/-- Trainer-task cell: `TaskAddParameter(id='TrainerTask', command_line=…,
display_name='Trainer', user_identity=…, multi_instance_settings=…)`. -/
def trainer_task (u user : String) : TaskAddParameter :=
  { id := "TrainerTask"
    role := "trainer"
    command_line := trainer_cmd u
    display_name := "Trainer"
    user_name := user
    number_of_instances := 1
    coordination_command_line := "cls" }

/-- Agent-task loop body: `TaskAddParameter(id='AgentTask_{0}'.format(i),
command_line=agent_cmd_line, display_name='Agent_{0}'.format(i), …)`. -/
def agent_task (i : Nat) (u user : String) : TaskAddParameter :=
  { id := "AgentTask_" ++ toString i
    role := "agent"
    command_line := agent_cmd u
    display_name := "Agent_" ++ toString i
    user_name := user
    number_of_instances := 1
    coordination_command_line := "cls" }

/-- Task cell: the roster starts with the trainer task and appends one agent
task per index of `range(0, batch_pool_size - 1, 1)`. -/
def tasks (batch_pool_size : Nat) (u user : String) : List TaskAddParameter :=
  trainer_task u user ::
    (List.range (batch_pool_size - 1)).map (fun i => agent_task i u user)

/-- Ghost-field consistency: every launched task's command line carries the
`role=` value recorded in its `role` field. -/
theorem task_role_in_command_line (batch_pool_size : Nat) (u user : String) :
    ∀ t ∈ tasks batch_pool_size u user,
      occursIn ("role=" ++ t.role) t.command_line = true := by
  intro t ht
  rcases List.mem_cons.mp ht with rfl | hmem
  · show occursIn ("role=" ++ "trainer") (trainer_cmd u) = true
    unfold trainer_cmd trainer_command_line
    apply occursIn_left
    decide
  · rcases List.mem_map.mp hmem with ⟨i, _, rfl⟩
    show occursIn ("role=" ++ "agent") (agent_cmd u) = true
    unfold agent_cmd agent_cmd_line
    apply occursIn_left
    decide

/-- Sample rendering of a UUID4, used for concrete launched-job instances. -/
def sampleUuid : String := "00000000-0000-4000-8000-000000000000"

/-! ## Claims about the launcher -/

/-- C1, counterexample: the claim says every recognized configuration key is
supplied to every node, but the trainer node's command line at a launched job
does not carry `min_epsilon=` at all. -/
theorem launcher_config_keys_counterexample :
    occursIn "min_epsilon=" (trainer_cmd sampleUuid) = false := by decide

/-- C1, amended: the launcher supplies the trainer node with the keys
`data_dir`, `role=trainer`, `experiment_name`, `batch_update_frequency`,
`weights_path` and `train_conv_layers`, and every agent node with `data_dir`,
`role=agent`, `max_epoch_runtime_sec`, `per_iter_epsilon_reduction`,
`min_epsilon`, `batch_size`, `replay_memory_size`, `experiment_name`,
`weights_path` and `train_conv_layers`; the trainer line omits the five
per-agent hyperparameter keys, the agent line omits `batch_update_frequency`,
and no node receives a separate `job_id` key (the job id travels as the
`experiment_name` value). -/
theorem launcher_config_keys :
    (∀ u : String,
        occursIn "data_dir=" (trainer_cmd u) = true
      ∧ occursIn "role=trainer" (trainer_cmd u) = true
      ∧ occursIn "experiment_name=" (trainer_cmd u) = true
      ∧ occursIn "batch_update_frequency=" (trainer_cmd u) = true
      ∧ occursIn "weights_path=" (trainer_cmd u) = true
      ∧ occursIn "train_conv_layers=" (trainer_cmd u) = true)
  ∧ (∀ u : String,
        occursIn "data_dir=" (agent_cmd u) = true
      ∧ occursIn "role=agent" (agent_cmd u) = true
      ∧ occursIn "max_epoch_runtime_sec=" (agent_cmd u) = true
      ∧ occursIn "per_iter_epsilon_reduction=" (agent_cmd u) = true
      ∧ occursIn "min_epsilon=" (agent_cmd u) = true
      ∧ occursIn "batch_size=" (agent_cmd u) = true
      ∧ occursIn "replay_memory_size=" (agent_cmd u) = true
      ∧ occursIn "experiment_name=" (agent_cmd u) = true
      ∧ occursIn "weights_path=" (agent_cmd u) = true
      ∧ occursIn "train_conv_layers=" (agent_cmd u) = true)
  ∧ (occursIn "max_epoch_runtime_sec=" (trainer_cmd sampleUuid) = false
      ∧ occursIn "per_iter_epsilon_reduction=" (trainer_cmd sampleUuid) = false
      ∧ occursIn "min_epsilon=" (trainer_cmd sampleUuid) = false
      ∧ occursIn "batch_size=" (trainer_cmd sampleUuid) = false
      ∧ occursIn "replay_memory_size=" (trainer_cmd sampleUuid) = false)
  ∧ occursIn "batch_update_frequency=" (agent_cmd sampleUuid) = false
  ∧ (occursIn "job_id=" (trainer_cmd sampleUuid) = false
      ∧ occursIn "job_id=" (agent_cmd sampleUuid) = false) := by
  refine ⟨fun u => ⟨?_, ?_, ?_, ?_, ?_, ?_⟩,
          fun u => ⟨?_, ?_, ?_, ?_, ?_, ?_, ?_, ?_, ?_, ?_⟩,
          ⟨?_, ?_, ?_, ?_, ?_⟩, ?_, ⟨?_, ?_⟩⟩ <;>
    simp only [trainer_cmd, agent_cmd, trainer_command_line, agent_cmd_line] <;>
    repeat first
      | decide
      | (apply occursIn_left ; decide)
      | apply occursIn_right

/-- C2: every launched roster has exactly one trainer-role task, and
`batch_pool_size - 1` agent-role tasks, for every pool size of at least 1. -/
theorem job_roster (batch_pool_size : Nat) (u user : String)
    (hn : 1 ≤ batch_pool_size) :
    ((tasks batch_pool_size u user).countP (fun t => t.role == "trainer") = 1)
  ∧ ((tasks batch_pool_size u user).countP (fun t => t.role == "agent")
      = batch_pool_size - 1)
  ∧ ((tasks batch_pool_size u user).length = batch_pool_size) := by
  refine ⟨?_, ?_, ?_⟩
  · simp [tasks, trainer_task, agent_task, List.countP_cons, List.countP_map,
      Function.comp]
  · simp [tasks, trainer_task, agent_task, List.countP_cons, List.countP_map,
      Function.comp_def, List.countP_true]
  · simp [tasks]
    omega

/-- C2 witness: a launched job on a pool of three nodes has one trainer task
and two agent tasks. -/
theorem job_roster_witness :
    (1 ≤ 3)
  ∧ (((tasks 3 sampleUuid "clusteruser").countP (fun t => t.role == "trainer") = 1)
      ∧ ((tasks 3 sampleUuid "clusteruser").countP (fun t => t.role == "agent") = 3 - 1)
      ∧ ((tasks 3 sampleUuid "clusteruser").length = 3)) :=
  ⟨by decide, job_roster 3 sampleUuid "clusteruser" (by decide)⟩

/-- C8: the `train_conv_layers` value (here the string `'false'`, with a
pretrained `weights_path` configured) is carried on the startup command line
of every launched task, the trainer node's and every agent node's alike. -/
theorem train_conv_layers_carried (batch_pool_size : Nat) (u user : String) :
    ∀ t ∈ tasks batch_pool_size u user,
      occursIn ("train_conv_layers=" ++ train_conv_layers) t.command_line = true := by
  intro t ht
  rcases List.mem_cons.mp ht with rfl | hmem
  · simp only [trainer_task, trainer_cmd, trainer_command_line]
    repeat first
      | decide
      | (apply occursIn_left ; decide)
      | apply occursIn_right
  · rcases List.mem_map.mp hmem with ⟨i, _, rfl⟩
    simp only [agent_task, agent_cmd, agent_cmd_line]
    repeat first
      | decide
      | (apply occursIn_left ; decide)
      | apply occursIn_right

/-- C8 witness: the trainer task of a concrete launched job is in the roster
and its command line carries the configured `train_conv_layers` value. -/
theorem train_conv_layers_carried_witness :
    (trainer_task sampleUuid "clusteruser" ∈ tasks 3 sampleUuid "clusteruser")
  ∧ occursIn ("train_conv_layers=" ++ train_conv_layers)
      (trainer_task sampleUuid "clusteruser").command_line = true :=
  ⟨List.mem_cons_self _ _,
   train_conv_layers_carried 3 sampleUuid "clusteruser" _ (List.mem_cons_self _ _)⟩

/-- Lowercase-hexadecimal digit test, for the UUID4 text rendering. -/
def isHexDigitChar (c : Char) : Bool :=
  (('0' ≤ c) && (c ≤ '9')) || (('a' ≤ c) && (c ≤ 'f'))

/-- Modelled from the spec: the data model calls `jobId` a UUID.  Python's
`str(uuid.uuid4())` renders 36 characters, hyphens at positions 8, 13, 18 and
23 and lowercase hexadecimal digits elsewhere; the `uuid` library itself is
outside the repository. -/
def isUuidString (s : String) : Bool :=
  (s.data.length == 36) &&
  ((List.range 36).all fun i =>
    if i == 8 || i == 13 || i == 18 || i == 23 then s.data.getD i ' ' == '-'
    else isHexDigitChar (s.data.getD i ' '))

/-- C9, counterexample: a launched job built from a well-formed UUID4
rendering has a job identifier that is not itself a UUID (it carries the
`distributed_rl_` two-word stem in front, making it 51 characters long). -/
theorem job_id_not_bare_uuid :
    (isUuidString sampleUuid = true) ∧ (isUuidString (job_id sampleUuid) = false) :=
  ⟨by decide, by decide⟩

theorem experiment_name_in_trainer (u : String) :
    occursIn ("experiment_name=" ++ job_id u) (trainer_cmd u) = true := by
  simp only [trainer_cmd, trainer_command_line]
  rw [show ("call C:\\\\prereq\\\\mount.bat && C:\\\\ProgramData\\\\Anaconda3\\\\Scripts\\\\activate.bat py36 && python -u Z:\\\\scripts_downpour\\\\manage.py runserver 0.0.0.0:80 data_dir=Z:\\\\\\\\ role=trainer experiment_name=" : String)
      = "call C:\\\\prereq\\\\mount.bat && C:\\\\ProgramData\\\\Anaconda3\\\\Scripts\\\\activate.bat py36 && python -u Z:\\\\scripts_downpour\\\\manage.py runserver 0.0.0.0:80 data_dir=Z:\\\\\\\\ role=trainer " ++ "experiment_name=" from rfl]
  rw [str_append_assoc]
  apply occursIn_right
  rw [← str_append_assoc]
  exact occursIn_start _ _

theorem experiment_name_in_agent (u : String) :
    occursIn ("experiment_name=" ++ job_id u) (agent_cmd u) = true := by
  simp only [agent_cmd, agent_cmd_line]
  apply occursIn_right
  apply occursIn_right
  apply occursIn_right
  apply occursIn_right
  apply occursIn_right
  apply occursIn_right
  apply occursIn_right
  apply occursIn_right
  apply occursIn_right
  apply occursIn_right
  rw [show (" experiment_name=" : String) = " " ++ "experiment_name=" from rfl]
  rw [str_append_assoc]
  apply occursIn_right
  rw [← str_append_assoc]
  exact occursIn_start _ _

/-- C9, amended: the launched job identifier is the string `distributed_rl_`
followed by a freshly generated UUID4 rendering (so UUID-derived and unique
per job, but not itself a bare UUID), and that identifier is used both as the
Azure Batch job id and as the `experiment_name` value on the trainer node's
and every agent node's command line. -/
theorem job_id_structure (u pool_name : String) :
    (job_id u = "distributed_rl_" ++ u)
  ∧ ((job u pool_name).id = job_id u)
  ∧ (occursIn ("experiment_name=" ++ job_id u) (trainer_cmd u) = true)
  ∧ (occursIn ("experiment_name=" ++ job_id u) (agent_cmd u) = true) :=
  ⟨rfl, rfl, experiment_name_in_trainer u, experiment_name_in_agent u⟩

/-- C10: all agent tasks of a launched job carry the identical command line
(the one `agent_cmd_line` value, so the same hyperparameters and annealing
schedule for every agent) and the same user identity; agent tasks differ only
in their indexed task id and display name. -/
theorem agent_tasks_identical (batch_pool_size : Nat) (u user : String) :
    ∀ t1 t2, t1 ∈ tasks batch_pool_size u user → t2 ∈ tasks batch_pool_size u user →
      t1.role = "agent" → t2.role = "agent" →
      (t1.command_line = t2.command_line)
    ∧ (t1.command_line = agent_cmd u)
    ∧ (t1.user_name = t2.user_name)
    ∧ (∃ i, i < batch_pool_size - 1
          ∧ t1.id = "AgentTask_" ++ toString i
          ∧ t1.display_name = "Agent_" ++ toString i) := by
  have hmem : ∀ t, t ∈ tasks batch_pool_size u user → t.role = "agent" →
      ∃ i, i < batch_pool_size - 1 ∧ t = agent_task i u user := by
    intro t ht hrole
    rcases List.mem_cons.mp ht with rfl | hm
    · simp [trainer_task] at hrole
    · rcases List.mem_map.mp hm with ⟨i, hi, rfl⟩
      exact ⟨i, List.mem_range.mp hi, rfl⟩
  intro t1 t2 h1 h2 hr1 hr2
  rcases hmem t1 h1 hr1 with ⟨i, hilt, rfl⟩
  rcases hmem t2 h2 hr2 with ⟨j, hjlt, rfl⟩
  exact ⟨rfl, rfl, rfl, ⟨i, hilt, rfl, rfl⟩⟩

/-- C10 witness: in a pool of three nodes, the two agent tasks of a concrete
launched job carry the identical command line. -/
theorem agent_tasks_identical_witness :
    (agent_task 0 sampleUuid "clusteruser" ∈ tasks 3 sampleUuid "clusteruser")
  ∧ (agent_task 1 sampleUuid "clusteruser" ∈ tasks 3 sampleUuid "clusteruser")
  ∧ ((agent_task 0 sampleUuid "clusteruser").role = "agent")
  ∧ ((agent_task 1 sampleUuid "clusteruser").role = "agent")
  ∧ (((agent_task 0 sampleUuid "clusteruser").command_line
        = (agent_task 1 sampleUuid "clusteruser").command_line)
      ∧ ((agent_task 0 sampleUuid "clusteruser").command_line = agent_cmd sampleUuid)
      ∧ ((agent_task 0 sampleUuid "clusteruser").user_name
          = (agent_task 1 sampleUuid "clusteruser").user_name)
      ∧ (∃ i, i < 3 - 1
            ∧ (agent_task 0 sampleUuid "clusteruser").id = "AgentTask_" ++ toString i
            ∧ (agent_task 0 sampleUuid "clusteruser").display_name
                = "Agent_" ++ toString i)) :=
  ⟨List.mem_cons_of_mem _ (List.mem_map.mpr ⟨0, List.mem_range.mpr (by decide), rfl⟩),
   List.mem_cons_of_mem _ (List.mem_map.mpr ⟨1, List.mem_range.mpr (by decide), rfl⟩),
   rfl, rfl,
   agent_tasks_identical 3 sampleUuid "clusteruser" _ _
     (List.mem_cons_of_mem _ (List.mem_map.mpr ⟨0, List.mem_range.mpr (by decide), rfl⟩))
     (List.mem_cons_of_mem _ (List.mem_map.mpr ⟨1, List.mem_range.mpr (by decide), rfl⟩))
     rfl rfl⟩

/-! ## Replay Memory (modelled from the spec)

The agent-side replay buffer lives in `scripts_downpour/app`, which is not
part of the repository snapshot, so it is modelled from §4.4 of the
specification. -/

/-- Modelled from the spec: a Replay Memory is a `capacity`-bounded FIFO
buffer of transitions, kept here in insertion order, oldest first. -/
structure ReplayMemory (α : Type) where
  capacity : Nat
  buffer : List α

/-- Modelled from the spec: `push(transition)` appends; if size already equals
`capacity`, the oldest transition is evicted first. -/
def ReplayMemory.push {α : Type} (m : ReplayMemory α) (x : α) : ReplayMemory α :=
  if m.buffer.length = m.capacity then
    { m with buffer := m.buffer.tail ++ [x] }
  else
    { m with buffer := m.buffer ++ [x] }

/-- Pushing a whole sequence of transitions, in order. -/
def ReplayMemory.pushAll {α : Type} (m : ReplayMemory α) (ts : List α) :
    ReplayMemory α :=
  ts.foldl ReplayMemory.push m

/-- Modelled from the spec: sampling fails with `InsufficientDataError`. -/
inductive ReplayMemoryError where
  | insufficientDataError

/-- Modelled from the spec: `sample(n)` fails when the current size is below
`n`, and otherwise returns `n` transitions drawn without replacement together
with the untouched buffer.  The random draw is the parameter `idxs`: a uniform
sampler hands over `n` distinct positions below the buffer's size. -/
def ReplayMemory.sample {α : Type} (m : ReplayMemory α) (n : Nat)
    (idxs : List Nat) : Except ReplayMemoryError (List α × ReplayMemory α) :=
  if m.buffer.length < n then .error .insufficientDataError
  else .ok (idxs.filterMap (fun i => m.buffer.get? i), m)

theorem ReplayMemory.pushAll_buffer {α : Type} (c : Nat) (hc : 1 ≤ c)
    (ts : List α) : ∀ init : List α, init.length ≤ c →
    (ReplayMemory.pushAll ⟨c, init⟩ ts).buffer
      = (init ++ ts).drop (init.length + ts.length - c) := by
  induction ts with
  | nil =>
    intro init hlen
    simp [ReplayMemory.pushAll, Nat.sub_eq_zero_of_le hlen]
  | cons t ts ih =>
    intro init hlen
    show (ReplayMemory.pushAll (ReplayMemory.push ⟨c, init⟩ t) ts).buffer = _
    by_cases hfull : init.length = c
    · cases init with
      | nil => simp at hfull; omega
      | cons a init' =>
        have hpush : ReplayMemory.push ⟨c, a :: init'⟩ t
            = ⟨c, init' ++ [t]⟩ := by
          simp [ReplayMemory.push, hfull]
        rw [hpush, ih (init' ++ [t]) (by simp at hfull ⊢; omega)]
        simp only [List.length_cons] at hfull
        rw [show (init' ++ [t]) ++ ts = init' ++ (t :: ts) by simp]
        rw [show (a :: init') ++ t :: ts = a :: (init' ++ t :: ts) by simp]
        rw [show (init' ++ [t]).length + ts.length - c = ts.length by simp; omega]
        rw [show (a :: init').length + (t :: ts).length - c = ts.length + 1 by
          simp; omega]
        rw [List.drop_succ_cons]
    · have hlt : init.length < c := Nat.lt_of_le_of_ne hlen hfull
      have hpush : ReplayMemory.push ⟨c, init⟩ t = ⟨c, init ++ [t]⟩ := by
        simp [ReplayMemory.push, hfull]
      rw [hpush, ih (init ++ [t]) (by simp; omega)]
      rw [show (init ++ [t]) ++ ts = init ++ (t :: ts) by simp]
      congr 1
      simp
      omega

/-- C4: filling a capacity-`c` memory with `c + k` transitions (k ≥ 1) leaves
exactly the last `c` transitions, in insertion order (the oldest `k` evicted
first), and no push sequence ever brings the size above the capacity. -/
theorem replay_memory_fifo {α : Type} (c k : Nat) (ts : List α)
    (hc : 1 ≤ c) (hlen : ts.length = c + k) (hk : 1 ≤ k) :
    ((ReplayMemory.pushAll ⟨c, []⟩ ts).buffer = ts.drop k)
  ∧ (∀ us : List α, (ReplayMemory.pushAll ⟨c, []⟩ us).buffer.length ≤ c) := by
  constructor
  · rw [ReplayMemory.pushAll_buffer c hc ts [] (by simp)]
    rw [show ([] : List α).length + ts.length - c = k by simp; omega]
    simp
  · intro us
    rw [ReplayMemory.pushAll_buffer c hc us [] (by simp)]
    simp
    omega

/-- C4 witness: the capacity-3 memory receiving `[A, B, C, D]` ends with
contents `[B, C, D]`. -/
theorem replay_memory_fifo_witness :
    (1 ≤ 3) ∧ ((["A", "B", "C", "D"] : List String).length = 3 + 1) ∧ (1 ≤ 1)
  ∧ (((ReplayMemory.pushAll ⟨3, []⟩ ["A", "B", "C", "D"]).buffer
        = ["A", "B", "C", "D"].drop 1)
      ∧ (∀ us : List String, (ReplayMemory.pushAll ⟨3, []⟩ us).buffer.length ≤ 3)) :=
  ⟨by decide, by decide, by decide,
   replay_memory_fifo 3 1 ["A", "B", "C", "D"] (by decide) (by decide) (by decide)⟩

theorem ReplayMemory.lookup_all_length {α : Type} (l : List α) (idxs : List Nat)
    (h : ∀ i ∈ idxs, i < l.length) :
    (idxs.filterMap (fun i => l.get? i)).length = idxs.length := by
  induction idxs with
  | nil => rfl
  | cons i is ih =>
    have hi : i < l.length := h i (by simp)
    rw [List.filterMap_cons, List.get?_eq_get hi]
    simp [ih (fun j hj => h j (by simp [hj]))]
    intro a ha
    simp [List.getElem?_eq_getElem (h a (by simp [ha]))]

/-- C5: `sample n` fails with the insufficient-data error exactly when the
buffer holds fewer than `n` transitions, whatever positions the random source
offers; with at least `n` transitions and a without-replacement draw (`n`
distinct in-range positions), it returns `n` transitions taken from the
buffer and hands the buffer itself back unmodified. -/
theorem replay_memory_sample_contract {α : Type} (m : ReplayMemory α) (n : Nat) :
    (m.buffer.length < n →
      ∀ idxs : List Nat, m.sample n idxs = .error .insufficientDataError)
  ∧ (n ≤ m.buffer.length →
      ∀ idxs : List Nat, idxs.length = n → idxs.Nodup →
        (∀ i ∈ idxs, i < m.buffer.length) →
        ∃ ys : List α, m.sample n idxs = .ok (ys, m)
          ∧ ys.length = n
          ∧ ∀ y ∈ ys, y ∈ m.buffer) := by
  constructor
  · intro hlt idxs
    simp [ReplayMemory.sample, hlt]
  · intro hge idxs hlen _ hrange
    refine ⟨idxs.filterMap (fun i => m.buffer.get? i), ?_, ?_, ?_⟩
    · simp [ReplayMemory.sample, Nat.not_lt_of_ge hge]
    · rw [ReplayMemory.lookup_all_length m.buffer idxs hrange, hlen]
    · intro y hy
      rcases List.mem_filterMap.mp hy with ⟨i, _, hget⟩
      exact List.get?_mem hget

/-- C5 witness: on a three-element buffer, sampling 4 fails with the
insufficient-data error, and sampling 2 at the distinct positions 0 and 2
returns two stored transitions and the unmodified buffer. -/
theorem replay_memory_sample_contract_witness :
    (((⟨3, ["A", "B", "C"]⟩ : ReplayMemory String).sample 4 [0, 1]
        = .error .insufficientDataError)
  ∧ (∃ ys : List String,
        (⟨3, ["A", "B", "C"]⟩ : ReplayMemory String).sample 2 [0, 2]
          = .ok (ys, ⟨3, ["A", "B", "C"]⟩)
      ∧ ys.length = 2
      ∧ ∀ y ∈ ys, y ∈ (["A", "B", "C"] : List String))) :=
  ⟨(replay_memory_sample_contract ⟨3, ["A", "B", "C"]⟩ 4).1 (by decide) [0, 1],
   (replay_memory_sample_contract ⟨3, ["A", "B", "C"]⟩ 2).2 (by decide) [0, 2]
     (by decide) (by decide) (by decide)⟩

/-! ## Epsilon-greedy annealing (modelled from the spec)

The agent's epsilon schedule lives in `scripts_downpour/app`, not in the
repository snapshot, so it is modelled from §4.2 of the specification. -/

/-- Modelled from the spec: each iteration decrements epsilon by
`perIterEpsilonReduction`, floored at `minEpsilon`. -/
def epsilonStep (minEps red eps : ℚ) : ℚ := max minEps (eps - red)

/-- Modelled from the spec: the epsilon value after `i` iterations, starting
from `initialEpsilon = eps0`. -/
def epsilonAfter (minEps red eps0 : ℚ) : Nat → ℚ
  | 0 => eps0
  | i + 1 => epsilonStep minEps red (epsilonAfter minEps red eps0 i)

theorem max_floor_step (m a r : ℚ) (hr : 0 ≤ r) :
    max m (max m a - r) = max m (a - r) := by
  rcases le_total a m with h | h
  · rw [max_eq_left h, max_eq_left (by linarith), max_eq_left (by linarith)]
  · rw [max_eq_right h]

/-- C6: starting at `eps0 ≥ minEps` with a nonnegative per-iteration
reduction, the epsilon value after `i` iterations is exactly
`max minEps (eps0 - i * red)`; it never falls below `minEps`, and the
sequence is monotonically non-increasing. -/
theorem epsilon_schedule (minEps red eps0 : ℚ)
    (hmin : minEps ≤ eps0) (hred : 0 ≤ red) :
    (∀ i : Nat, epsilonAfter minEps red eps0 i = max minEps (eps0 - i * red))
  ∧ (∀ i : Nat, minEps ≤ epsilonAfter minEps red eps0 i)
  ∧ (∀ i : Nat,
      epsilonAfter minEps red eps0 (i + 1) ≤ epsilonAfter minEps red eps0 i) := by
  have hclosed : ∀ i : Nat,
      epsilonAfter minEps red eps0 i = max minEps (eps0 - i * red) := by
    intro i
    induction i with
    | zero => simp [epsilonAfter, max_eq_right hmin]
    | succ i ih =>
      show epsilonStep minEps red (epsilonAfter minEps red eps0 i) = _
      rw [ih, epsilonStep, max_floor_step _ _ _ hred]
      congr 1
      push_cast
      ring
  refine ⟨hclosed, ?_, ?_⟩
  · intro i
    rw [hclosed i]
    exact le_max_left _ _
  · intro i
    rw [hclosed i, hclosed (i + 1)]
    apply max_le (le_max_left _ _)
    refine le_trans ?_ (le_max_right _ _)
    have hnn : (0 : ℚ) ≤ (i : ℚ) := Nat.cast_nonneg i
    push_cast
    nlinarith

/-- C6 witness: with the notebook's configured `min_epsilon = 0.1` and
`per_iter_epsilon_reduction = 0.003` and an initial epsilon of 1, the closed
form, the floor and the monotonicity all hold. -/
theorem epsilon_schedule_witness :
    (min_epsilon ≤ 1) ∧ (0 ≤ per_iter_epsilon_reduction)
  ∧ ((∀ i : Nat, epsilonAfter min_epsilon per_iter_epsilon_reduction 1 i
        = max min_epsilon (1 - i * per_iter_epsilon_reduction))
      ∧ (∀ i : Nat, min_epsilon ≤ epsilonAfter min_epsilon per_iter_epsilon_reduction 1 i)
      ∧ (∀ i : Nat,
          epsilonAfter min_epsilon per_iter_epsilon_reduction 1 (i + 1)
            ≤ epsilonAfter min_epsilon per_iter_epsilon_reduction 1 i)) :=
  ⟨by norm_num [min_epsilon], by norm_num [per_iter_epsilon_reduction],
   epsilon_schedule min_epsilon per_iter_epsilon_reduction 1
     (by norm_num [min_epsilon]) (by norm_num [per_iter_epsilon_reduction])⟩

/-! ## Parameter Server Core and Checkpoint Manager (modelled from the spec)

The trainer-side server (`manage.py`) is not part of the repository snapshot,
so §4.1 of the specification is modelled here.  The opaque network-compute
function is the parameter `applyGradient`; `snapshots` records every snapshot
that has ever been current, newest first, and `persistLog` records every
snapshot handed to the Checkpoint Manager, newest first. -/

/-- Modelled from the spec: the canonical weights at a point in time, a
monotonic integer version over an opaque weight blob. -/
structure ModelSnapshot (W : Type) where
  version : Nat
  weights : W

/-- Modelled from the spec: one agent's computed update. -/
structure GradientUpdate (G : Type) where
  baseVersion : Nat
  gradientBlob : G
  agentId : String
  sampleCount : Nat

/-- Modelled from the spec: the server's state, the current snapshot plus the
`TrainerCounters` bookkeeping, with ghost histories of all served snapshots
and all checkpointed snapshots. -/
structure ServerState (W G : Type) where
  snapshot : ModelSnapshot W
  updateCount : Nat
  updatesSinceCheckpoint : Nat
  checkpointFrequency : Nat
  snapshots : List (ModelSnapshot W)
  persistLog : List (ModelSnapshot W)

/-- Modelled from the spec: `pull()` returns the current snapshot,
side-effect-free. -/
def ServerState.pull {W G : Type} (s : ServerState W G) : Nat × W :=
  (s.snapshot.version, s.snapshot.weights)

/-- Modelled from the spec: `push` applies the gradient to the current
snapshot whatever the update's `baseVersion` (stale pushes are accepted
unscaled), increments `version` and `updateCount`, and — when
`updatesSinceCheckpoint` reaches `checkpointFrequency` — hands the new
snapshot to the Checkpoint Manager and resets the counter to 0.  Returns the
new state and, as the call's result, the resulting version. -/
def ServerState.push {W G : Type} (applyGradient : W → G → W)
    (s : ServerState W G) (g : GradientUpdate G) : ServerState W G × Nat :=
  let newSnap : ModelSnapshot W :=
    { version := s.snapshot.version + 1
      weights := applyGradient s.snapshot.weights g.gradientBlob }
  if s.updatesSinceCheckpoint + 1 = s.checkpointFrequency then
    ({ s with snapshot := newSnap
              updateCount := s.updateCount + 1
              updatesSinceCheckpoint := 0
              snapshots := newSnap :: s.snapshots
              persistLog := newSnap :: s.persistLog }, newSnap.version)
  else
    ({ s with snapshot := newSnap
              updateCount := s.updateCount + 1
              updatesSinceCheckpoint := s.updatesSinceCheckpoint + 1
              snapshots := newSnap :: s.snapshots }, newSnap.version)

/-- Modelled from the spec: a freshly started server, at version 0 over the
caller-supplied initial weights, with the configured checkpoint frequency. -/
def initServer {W G : Type} (w0 : W) (freq : Nat) : ServerState W G :=
  { snapshot := { version := 0, weights := w0 }
    updateCount := 0
    updatesSinceCheckpoint := 0
    checkpointFrequency := freq
    snapshots := [{ version := 0, weights := w0 }]
    persistLog := [] }

/-- Applying a whole sequence of pushes in server-receipt order. -/
def runPushes {W G : Type} (applyGradient : W → G → W)
    (s : ServerState W G) (gs : List (GradientUpdate G)) : ServerState W G :=
  gs.foldl (fun st g => (ServerState.push applyGradient st g).1) s

/-- Characterization of the server state after `n` applied pushes. -/
def ServerInv {W G : Type} (F n : Nat) (s : ServerState W G) : Prop :=
  s.snapshot.version = n
  ∧ s.updateCount = n
  ∧ s.updatesSinceCheckpoint = n % F
  ∧ s.checkpointFrequency = F
  ∧ s.snapshots.map ModelSnapshot.version = (List.range (n + 1)).reverse
  ∧ s.persistLog.map ModelSnapshot.version
      = (((List.range n).map (fun m => m + 1)).filter (fun m => m % F == 0)).reverse

theorem succ_mod_char (n F : Nat) :
    (n + 1) % F = if n % F + 1 = F then 0 else n % F + 1 := by
  rcases Nat.eq_zero_or_pos F with hF | hF
  · subst hF
    simp [Nat.mod_zero]
  · have hsplit : n + 1 = (n % F + 1) + F * (n / F) := by
      have := Nat.div_add_mod n F
      omega
    rw [hsplit, Nat.add_mul_mod_self_left]
    by_cases h : n % F + 1 = F
    · simp [h, Nat.mod_self]
    · have hlt : n % F + 1 < F := by
        have := Nat.mod_lt n hF
        omega
      simp [h, Nat.mod_eq_of_lt hlt]

theorem ServerState.push_fire {W G : Type} (applyGradient : W → G → W)
    (s : ServerState W G) (g : GradientUpdate G)
    (hcond : s.updatesSinceCheckpoint + 1 = s.checkpointFrequency) :
    (ServerState.push applyGradient s g).1
      = { s with
          snapshot := { version := s.snapshot.version + 1
                        weights := applyGradient s.snapshot.weights g.gradientBlob }
          updateCount := s.updateCount + 1
          updatesSinceCheckpoint := 0
          snapshots := { version := s.snapshot.version + 1
                         weights := applyGradient s.snapshot.weights g.gradientBlob }
            :: s.snapshots
          persistLog := { version := s.snapshot.version + 1
                          weights := applyGradient s.snapshot.weights g.gradientBlob }
            :: s.persistLog } := by
  simp [ServerState.push, hcond]

theorem ServerState.push_skip {W G : Type} (applyGradient : W → G → W)
    (s : ServerState W G) (g : GradientUpdate G)
    (hcond : ¬ s.updatesSinceCheckpoint + 1 = s.checkpointFrequency) :
    (ServerState.push applyGradient s g).1
      = { s with
          snapshot := { version := s.snapshot.version + 1
                        weights := applyGradient s.snapshot.weights g.gradientBlob }
          updateCount := s.updateCount + 1
          updatesSinceCheckpoint := s.updatesSinceCheckpoint + 1
          snapshots := { version := s.snapshot.version + 1
                         weights := applyGradient s.snapshot.weights g.gradientBlob }
            :: s.snapshots } := by
  simp [ServerState.push, hcond]

theorem ServerInv_push {W G : Type} (applyGradient : W → G → W) (F n : Nat)
    (s : ServerState W G) (g : GradientUpdate G) (h : ServerInv F n s) :
    ServerInv F (n + 1) (ServerState.push applyGradient s g).1 := by
  obtain ⟨hv, hc, hu, hF, hs, hp⟩ := h
  have hmod := succ_mod_char n F
  have hrange : (List.range (n + 1 + 1)).reverse
      = (n + 1) :: (List.range (n + 1)).reverse := by
    rw [List.range_succ, List.reverse_append]
    rfl
  have hfilters : (((List.range (n + 1)).map (fun m => m + 1)).filter
        (fun m => m % F == 0))
      = (((List.range n).map (fun m => m + 1)).filter (fun m => m % F == 0))
          ++ (if (n + 1) % F == 0 then [n + 1] else []) := by
    rw [List.range_succ, List.map_append, List.filter_append]
    simp [List.filter_singleton]
  by_cases hfire : n % F + 1 = F
  · have hcond : s.updatesSinceCheckpoint + 1 = s.checkpointFrequency := by
      rw [hu, hF, hfire]
    rw [ServerState.push_fire applyGradient s g hcond]
    have hz : (n + 1) % F = 0 := by rw [hmod, if_pos hfire]
    refine ⟨by simp [hv], by simp [hc], by simp [hz], by simp [hF], ?_, ?_⟩
    · simp only [List.map_cons, hs, hv, hrange]
    · simp only [List.map_cons, hp, hv]
      rw [hfilters]
      rw [if_pos (by simp [hz])]
      rw [List.reverse_append]
      rfl
  · have hcond : ¬ s.updatesSinceCheckpoint + 1 = s.checkpointFrequency := by
      rw [hu, hF]
      exact hfire
    rw [ServerState.push_skip applyGradient s g hcond]
    have hnz : (n + 1) % F = n % F + 1 := by rw [hmod, if_neg hfire]
    refine ⟨by simp [hv], by simp [hc], by simp [hu, hnz], by simp [hF], ?_, ?_⟩
    · simp only [List.map_cons, hs, hv, hrange]
    · simp only [hp]
      rw [hfilters]
      rw [if_neg (by simp [hnz])]
      simp

theorem runPushes_inv {W G : Type} (applyGradient : W → G → W) (F : Nat)
    (gs : List (GradientUpdate G)) :
    ∀ (n : Nat) (s : ServerState W G), ServerInv F n s →
      ServerInv F (n + gs.length) (runPushes applyGradient s gs) := by
  induction gs with
  | nil =>
    intro n s h
    simpa [runPushes] using h
  | cons g gs ih =>
    intro n s h
    have hstep := ServerInv_push applyGradient F n s g h
    have := ih (n + 1) _ hstep
    show ServerInv F (n + (gs.length + 1)) (runPushes applyGradient
      (ServerState.push applyGradient s g).1 gs)
    rw [show n + (gs.length + 1) = (n + 1) + gs.length by omega]
    exact this

theorem initServer_inv {W G : Type} (w0 : W) (F : Nat) :
    ServerInv F 0 (initServer (G := G) w0 F) := by
  refine ⟨rfl, rfl, by simp [initServer], rfl, ?_, by simp [initServer]⟩
  simp [initServer]
  decide

/-- C3: every applied push raises the model version by exactly one and
reports that version back to the caller, and over any run of pushes from a
fresh server no two snapshots that have ever been current share a version. -/
theorem push_version_monotone {W G : Type} (applyGradient : W → G → W) :
    (∀ (s : ServerState W G) (g : GradientUpdate G),
        ((ServerState.push applyGradient s g).1.snapshot.version
          = s.snapshot.version + 1)
      ∧ ((ServerState.push applyGradient s g).2 = s.snapshot.version + 1))
  ∧ (∀ (w0 : W) (F : Nat) (gs : List (GradientUpdate G)),
      ((runPushes applyGradient (initServer w0 F) gs).snapshots.map
        ModelSnapshot.version).Nodup) := by
  constructor
  · intro s g
    constructor
    · by_cases hcond : s.updatesSinceCheckpoint + 1 = s.checkpointFrequency
      · rw [ServerState.push_fire applyGradient s g hcond]
      · rw [ServerState.push_skip applyGradient s g hcond]
    · simp [ServerState.push]
      by_cases hcond : s.updatesSinceCheckpoint + 1 = s.checkpointFrequency <;>
        simp [hcond]
  · intro w0 F gs
    have h := runPushes_inv applyGradient F gs 0 _ (initServer_inv w0 F)
    obtain ⟨-, -, -, -, hs, -⟩ := h
    rw [show (0 : Nat) + gs.length = gs.length by omega] at hs
    rw [hs]
    exact List.nodup_reverse.mpr (List.nodup_range _)

/-- C7: with checkpoint frequency `F ≥ 1`, a run of pushes from a fresh
server hands a snapshot to the Checkpoint Manager exactly after pushes
`F, 2F, 3F, …`: the persisted versions are exactly the multiples of `F`
among `1 … gs.length`, each persisted exactly once (the log is duplicate-free),
and no persist happens at any other applied-push count. -/
theorem checkpoint_cadence {W G : Type} (applyGradient : W → G → W) (w0 : W)
    (F : Nat) (gs : List (GradientUpdate G)) (hF : 1 ≤ F) :
    ((runPushes applyGradient (initServer w0 F) gs).persistLog.map
        ModelSnapshot.version
      = (((List.range gs.length).map (fun m => m + 1)).filter
          (fun m => m % F == 0)).reverse)
  ∧ (∀ m : Nat,
      m ∈ (runPushes applyGradient (initServer w0 F) gs).persistLog.map
        ModelSnapshot.version
      ↔ (F ∣ m ∧ 1 ≤ m ∧ m ≤ gs.length))
  ∧ ((runPushes applyGradient (initServer w0 F) gs).persistLog.map
      ModelSnapshot.version).Nodup := by
  have h := runPushes_inv applyGradient F gs 0 _ (initServer_inv w0 F)
  obtain ⟨-, -, -, -, -, hp⟩ := h
  rw [show (0 : Nat) + gs.length = gs.length by omega] at hp
  refine ⟨hp, ?_, ?_⟩
  · intro m
    rw [hp]
    simp only [List.mem_reverse, List.mem_filter, List.mem_map, List.mem_range,
      beq_iff_eq]
    constructor
    · rintro ⟨⟨a, ha, rfl⟩, hm⟩
      exact ⟨Nat.dvd_iff_mod_eq_zero.mpr hm, by omega, by omega⟩
    · rintro ⟨hd, h1, h2⟩
      exact ⟨⟨m - 1, by omega, by omega⟩,
        Nat.dvd_iff_mod_eq_zero.mp hd⟩
  · rw [hp]
    refine List.nodup_reverse.mpr (List.Nodup.filter _ ?_)
    exact List.Nodup.map (fun a b hab => by omega) (List.nodup_range _)

/-- Five pushes from two agents, for the concrete checkpoint-cadence run. -/
def cadenceGradients : List (GradientUpdate Nat) :=
  [{ baseVersion := 0, gradientBlob := 1, agentId := "agent0", sampleCount := 32 },
   { baseVersion := 0, gradientBlob := 2, agentId := "agent1", sampleCount := 32 },
   { baseVersion := 2, gradientBlob := 1, agentId := "agent0", sampleCount := 32 },
   { baseVersion := 2, gradientBlob := 3, agentId := "agent1", sampleCount := 32 },
   { baseVersion := 4, gradientBlob := 1, agentId := "agent0", sampleCount := 32 }]

/-- C7 witness: with frequency 2 and five applied pushes the Checkpoint
Manager is invoked exactly at versions 2 and 4. -/
theorem checkpoint_cadence_witness :
    (1 ≤ 2)
  ∧ (((runPushes (fun w g => w + g) (initServer 0 2) cadenceGradients).persistLog.map
        ModelSnapshot.version
      = (((List.range cadenceGradients.length).map (fun m => m + 1)).filter
          (fun m => m % 2 == 0)).reverse)
    ∧ (∀ m : Nat,
        m ∈ (runPushes (fun w g => w + g) (initServer 0 2)
          cadenceGradients).persistLog.map ModelSnapshot.version
        ↔ (2 ∣ m ∧ 1 ≤ m ∧ m ≤ cadenceGradients.length))
    ∧ ((runPushes (fun w g => w + g) (initServer 0 2)
        cadenceGradients).persistLog.map ModelSnapshot.version).Nodup) :=
  ⟨by decide,
   checkpoint_cadence (fun w g => w + g) 0 2 cadenceGradients (by decide)⟩
